import Mathlib

/-!
Verification of the LP Execution & Orchestration Engine specification
against the repository's source.

Shallow embedding conventions:
* numeric values that the source holds as JS numbers are modelled as `Int`
  (tick and bin indices, which the source only ever combines with integer
  arithmetic) or as `Rat` (amounts, prices and fees, where the source's
  arithmetic is exact on the inputs of interest);
* fallible or effectful steps (RPC sends, simulation, the swap router)
  become explicit parameters: a call's outcome is passed in as a value of
  `Except` or as an outcome-valued function, and the embedded driver
  threads them exactly the way the source's control flow does;
* record and function names follow the source where Lean allows it.
-/

namespace LpEngine

/-! ## Position in-range conventions

From `src/raydium/index.ts` (`discoverRaydiumPositions`):
`inRange = currentTick >= pos.tickLower && currentTick < pos.tickUpper`.

From `src/monitoring/index.ts` (`checkPosition`):
`inRange = currentBin >= position.binRange.lower && currentBin <= position.binRange.upper`.
-/

/-- In-range flag of the Raydium CLMM position indexer
(`discoverRaydiumPositions`): half-open interval, upper bound exclusive. -/
def raydiumInRange (tickLower tickUpper currentTick : Int) : Bool :=
  decide (tickLower ≤ currentTick) && decide (currentTick < tickUpper)

/-- In-range flag of the DLMM position monitor (`checkPosition`):
closed interval, both bounds inclusive. -/
def dlmmInRange (lower upper currentBin : Int) : Bool :=
  decide (lower ≤ currentBin) && decide (currentBin ≤ upper)

/-! ## Protocol fee surface

From `api/index.ts`: `FEE_CONFIG.FEE_BPS = 10` and
`createFeeBreakdown(gross) = { feeAmount: gross*FEE_BPS/10000, netAmount: gross - feeAmount }`.
-/

/-- The fee rate in basis points set by `FEE_CONFIG` in `api/index.ts`. -/
def FEE_BPS : Nat := 10

/-- Result of `createFeeBreakdown` in `api/index.ts`. -/
structure FeeBreakdown where
  feeAmount : Rat
  netAmount : Rat
  deriving Repr, DecidableEq

/-- The fee breakdown computed by `createFeeBreakdown` in `api/index.ts`. -/
def createFeeBreakdown (grossAmount : Rat) : FeeBreakdown :=
  { feeAmount := grossAmount * (FEE_BPS : Rat) / 10000
  , netAmount := grossAmount - grossAmount * (FEE_BPS : Rat) / 10000 }

/-! ## Tick-range snap (Raydium CLMM builder)

From `buildRaydiumAtomicLP`:
```
const tickOffset = strategy === 'concentrated' ? 5 * tickSpacing : 20 * tickSpacing;
const tickLower = Math.floor((currentTick - tickOffset) / tickSpacing) * tickSpacing;
const tickUpper = Math.floor((currentTick + tickOffset) / tickSpacing) * tickSpacing;
```
`Math.floor` of the real quotient of two integers is floor division, i.e.
`Int.fdiv`.
-/

/-- Non-custom range shapes of the atomic-LP builders. -/
inductive RangeStrategy where
  | concentrated
  | wide
  deriving Repr, DecidableEq

/-- Width factor: 5 granularity units for CONCENTRATED, 20 for WIDE. -/
def RangeStrategy.widthFactor : RangeStrategy → Int
  | .concentrated => 5
  | .wide => 20

/-- The `tickOffset` computed by `buildRaydiumAtomicLP`. -/
def tickOffset (strategy : RangeStrategy) (tickSpacing : Int) : Int :=
  strategy.widthFactor * tickSpacing

/-- `tickLower` of `buildRaydiumAtomicLP`: floor of
`(currentTick - tickOffset) / tickSpacing`, times `tickSpacing`. -/
def raydiumTickLower (currentTick tickSpacing : Int) (strategy : RangeStrategy) : Int :=
  ((currentTick - tickOffset strategy tickSpacing).fdiv tickSpacing) * tickSpacing

/-- `tickUpper` of `buildRaydiumAtomicLP`: floor of
`(currentTick + tickOffset) / tickSpacing`, times `tickSpacing`. -/
def raydiumTickUpper (currentTick tickSpacing : Int) (strategy : RangeStrategy) : Int :=
  ((currentTick + tickOffset strategy tickSpacing).fdiv tickSpacing) * tickSpacing

/-! ## Oracle aggregation

From the oracle service in `src/services/lp-service.ts` (`median`, `aggregate`),
with JS numbers modelled as `Rat`. The source sorts with
`values.sort((a, b) => a - b)` (ascending numeric sort), modelled here by
insertion sort, which computes the same ascending ordering of `Rat` values.
-/

/-- Identity of an oracle source: Pyth (primary) or Jupiter (secondary). -/
inductive OracleSource where
  | pyth
  | jupiter
  deriving Repr, DecidableEq, BEq

/-- One oracle reading, as in the `OraclePrice` interface of the oracle
service. -/
structure OraclePrice where
  price : Rat
  confidence : Rat
  emaPrice : Rat
  source : OracleSource
  stale : Bool
  deriving Repr, DecidableEq

/-- The `median` helper of the oracle service: 0 on the empty list, middle
element of the ascending sort for odd length, mean of the two middle elements
for even length. -/
def median (values : List Rat) : Rat :=
  if values.length = 0 then 0
  else
    let sorted := List.insertionSort (· ≤ ·) values
    let mid := sorted.length / 2
    if sorted.length % 2 ≠ 0 then sorted.getD mid 0
    else (sorted.getD (mid - 1) 0 + sorted.getD mid 0) / 2

/-- Divergence of one pair of prices, as computed inside `aggregate`:
`|p_i - p_j| / avg` when the average is positive, otherwise the pair is
skipped (contributes 0). -/
def pairDivergence (a b : Rat) : Rat :=
  let avg := (a + b) / 2
  if 0 < avg then |a - b| / avg else 0

/-- All index pairs `i < j` of a list, in the order of `aggregate`'s nested
loops. -/
def allPairs : List Rat → List (Rat × Rat)
  | [] => []
  | x :: xs => xs.map (fun y => (x, y)) ++ allPairs xs

/-- The `maxDiv` accumulation of `aggregate`: running maximum, starting at 0,
of the pairwise divergences. -/
def maxPairwiseDivergence (prices : List Rat) : Rat :=
  (allPairs prices).foldl (fun m p => max m (pairDivergence p.1 p.2)) 0

/-- `DIVERGENCE_THRESHOLD = 0.005` in the oracle service. -/
def DIVERGENCE_THRESHOLD : Rat := 5 / 1000

/-- The `AggregatedPrice` record of the oracle service (the echoed `sources`
array is omitted; it is the unmodified input). -/
structure AggregatedPrice where
  price : Rat
  emaPrice : Rat
  confidence : Rat
  divergence : Rat
  reliable : Bool
  deriving Repr, DecidableEq

/-- The `aggregate` function of the oracle service. Empty input returns the
all-zero unreliable record. Otherwise: price is the median of all source
prices, EMA prefers the Pyth source, confidence is the maximum over sources,
divergence is the maximal pairwise divergence, and
`reliable = !allStale && maxDiv <= DIVERGENCE_THRESHOLD`. -/
def aggregate (sources : List OraclePrice) : AggregatedPrice :=
  match sources with
  | [] => { price := 0, emaPrice := 0, confidence := 0, divergence := 0, reliable := false }
  | s0 :: rest =>
    let src := s0 :: rest
    let prices := src.map (·.price)
    let medianPrice := median prices
    let emaPrice :=
      match src.find? (fun s => s.source == .pyth) with
      | some p => p.emaPrice
      | none => medianPrice
    let confidence := (rest.map (·.confidence)).foldl max s0.confidence
    let maxDiv := maxPairwiseDivergence prices
    let allStale := src.all (·.stale)
    { price := medianPrice
    , emaPrice := emaPrice
    , confidence := confidence
    , divergence := maxDiv
    , reliable := !allStale && decide (maxDiv ≤ DIVERGENCE_THRESHOLD) }

/-! ## Compute-budget estimator

From `src/utils/priority-fees.ts` (`optimizeComputeBudget`): on simulation
failure or a simulation error or zero units consumed the default limit is
used; otherwise `Math.ceil(unitsConsumed * 1.3)` clamped to
`[50 000, 1 400 000]`. The exact ceiling of `13 * u / 10` on naturals is
`(13 * u + 9) / 10`.
-/

/-- `DEFAULT_CU_LIMIT` in `priority-fees.ts`. -/
def DEFAULT_CU_LIMIT : Nat := 400000

/-- Outcome of `connection.simulateTransaction`: the call itself may throw,
or return a value carrying an error flag and the units consumed
(`unitsConsumed` may also be absent, which the source treats like 0 via its
truthiness check; absence is modelled as 0). -/
inductive SimOutcome where
  | failed
  | returned (err : Bool) (unitsConsumed : Nat)
  deriving Repr, DecidableEq

/-- The compute-unit limit chosen by `optimizeComputeBudget`. -/
def optimizeComputeUnits : SimOutcome → Nat
  | .failed => DEFAULT_CU_LIMIT
  | .returned err units =>
    if err then DEFAULT_CU_LIMIT
    else if 0 < units then
      let optimized := (13 * units + 9) / 10
      max 50000 (min optimized 1400000)
    else DEFAULT_CU_LIMIT

/-! ## Transaction instruction composition

Instructions are modelled by which program they invoke: the two
compute-budget instructions the pipeline emits, any other compute-budget
program instruction, or an instruction of any other program. The
`filter((ix) => !ix.programId.equals(ComputeBudgetProgram.programId))` of the
builders drops exactly the first three kinds.
-/

/-- A transaction instruction, classified for the compute-budget invariant. -/
inductive Ix where
  | cuLimit (units : Nat)
  | cuPrice (microLamports : Nat)
  | budgetOther (tag : Nat)
  | nonBudget (tag : Nat)
  deriving Repr, DecidableEq

/-- Whether the instruction's program id is the compute-budget program. -/
def Ix.isComputeBudget : Ix → Bool
  | .cuLimit _ => true
  | .cuPrice _ => true
  | .budgetOther _ => true
  | .nonBudget _ => false

/-- Whether the instruction is a set-compute-unit-limit instruction. -/
def Ix.isCuLimit : Ix → Bool
  | .cuLimit _ => true
  | _ => false

/-- Whether the instruction is a set-compute-unit-price instruction. -/
def Ix.isCuPrice : Ix → Bool
  | .cuPrice _ => true
  | _ => false

/-- The estimate returned by `optimizeComputeBudget` (CU limit and priority
fee). -/
structure ComputeBudgetEstimate where
  computeUnits : Nat
  priorityFee : Nat
  deriving Repr, DecidableEq

/-- `buildComputeBudgetInstructions` of `priority-fees.ts`: the
set-compute-unit-limit and set-compute-unit-price pair. -/
def buildComputeBudgetInstructions (e : ComputeBudgetEstimate) : List Ix :=
  [.cuLimit e.computeUnits, .cuPrice e.priorityFee]

/-- The rebuild step of `buildRaydiumAtomicLP` (and of `buildOrcaAtomicLP`)
for its open-position transaction: prepend the two fresh budget instructions
and keep only the non-compute-budget instructions of the original message. -/
def rebuildWithBudget (e : ComputeBudgetEstimate) (ixs : List Ix) : List Ix :=
  buildComputeBudgetInstructions e ++ ixs.filter (fun ix => !ix.isComputeBudget)

/-- A transaction produced by the Meteora SDK, as branched on by
`convertToVersionedTx` in `src/lp/atomicRebalance.ts`: either already a
`VersionedTransaction`, or an instruction-bearing legacy transaction. -/
inductive MeteoraTx where
  | versioned (ixs : List Ix)
  | legacy (ixs : List Ix)
  deriving Repr, DecidableEq

/-- Instruction list of the transaction produced by `convertToVersionedTx` in
`src/lp/atomicRebalance.ts`: a `VersionedTransaction` is returned unchanged;
otherwise `setComputeUnitLimit(400000)` and `setComputeUnitPrice(50000)` are
prepended to the existing instructions, with no filtering of pre-existing
compute-budget instructions. -/
def convertToVersionedTx : MeteoraTx → List Ix
  | .versioned ixs => ixs
  | .legacy ixs => Ix.cuLimit 400000 :: Ix.cuPrice 50000 :: ixs

/-! ## Sequential (direct-RPC) submission

From `executeLp` in `src/services/lp-service.ts`, direct-RPC path: the loop
signs-and-sends each transaction in order, accumulating `txHashes`; a throw
from `signAndSendTransaction` propagates out of `executeLp`, abandoning the
accumulated hashes. The outcome of the i-th send is passed in as the i-th
list element; the function returns how many sends were attempted and what
`executeLp` returns or throws.
-/

/-- The direct-RPC send loop of `executeLp`. First component: number of
transactions attempted. Second: `.ok` with all hashes when every send lands,
or the thrown error, which carries no hashes. -/
def runSequentialSends : List (Except String String) → Nat × Except String (List String)
  | [] => (0, .ok [])
  | .error e :: _ => (1, .error e)
  | .ok h :: rest =>
    let r := runSequentialSends rest
    (r.1 + 1, r.2.map (fun hs => h :: hs))

/-! ## Bundle (Jito) submission path of `executeLp`

`executeLp` builds the pipeline once via `buildAtomicLP` at the caller's
`slippageBps`, signs, and submits with `withRetry` around `sendBundle`
(maxRetries 2, retrying only transient errors). There is no inspection of
the failure kind beyond the transient classifier and no rebuilding.
-/

/-- Modelled from the spec: the transient-error classifier `isTransientError`
of `src/utils/resilience.ts`, which is absent from the sources; the spec says
it treats timeouts, HTTP 5xx and rate-limit responses as transient. -/
def isTransientError (e : String) : Bool :=
  e == "timeout" || e == "http_5xx" || e == "rate_limited"

/-- Helper for `withRetry`: attempt index and retries remaining. -/
def withRetryAux (retryOn : String → Bool) (attempts : Nat → Except String String) :
    Nat → Nat → Except String String
  | i, 0 => attempts i
  | i, n + 1 =>
    match attempts i with
    | .ok v => .ok v
    | .error e => if retryOn e then withRetryAux retryOn attempts (i + 1) n else .error e

/-- Modelled from the spec: `withRetry` of `src/utils/resilience.ts`, absent
from the sources; the spec says transient failures are retried up to the
given bound (backoff delays are not modelled). -/
def withRetry (maxRetries : Nat) (retryOn : String → Bool)
    (attempts : Nat → Except String String) : Except String String :=
  withRetryAux retryOn attempts 0 maxRetries

/-- Trace of one `executeLp` invocation on the bundle path: the slippage
value passed to each `buildAtomicLP` call, and the surfaced outcome. -/
structure JitoRun where
  buildSlippages : List Nat
  result : Except String String
  deriving Repr

/-- The bundle path of `executeLp`: exactly one pipeline build at the
caller's `slippageBps`, then submission through `withRetry 2` with the
transient classifier; the submission outcome (the i-th attempt's outcome is
`sendAttempts i`) is returned or thrown unchanged. -/
def executeLpJito (slippageBps : Nat) (sendAttempts : Nat → Except String String) : JitoRun :=
  { buildSlippages := [slippageBps]
  , result := withRetry 2 isTransientError sendAttempts }

/-! ## DCA schedules

From the DCA service (`createDCASchedule`, `executeDCADeposit`,
`processDueSchedules`). Amounts are `Rat`; timing fields (`nextExecutionAt`,
`lastExecutedAt`, `createdAt`) and notification/history side effects do not
affect the budget invariant and are not modelled.
-/

/-- Schedule status, as in the `DCASchedule` interface. -/
inductive DCAStatus where
  | active
  | paused
  | completed
  | cancelled
  | failed
  deriving Repr, DecidableEq

/-- The budget-relevant fields of a `DCASchedule`. -/
structure DCASchedule where
  amountSolPerExecution : Rat
  totalBudgetSol : Rat
  spentSol : Rat
  executionCount : Nat
  maxExecutions : Nat
  status : DCAStatus
  deriving Repr, DecidableEq

/-- `createDCASchedule`: `spent = 0`, `executions = 0`, status ACTIVE, and
`maxExecutions = Math.floor(totalBudget / amountPerExecution)` (0 meaning
unlimited until the budget is depleted, per the source's comment). -/
def createDCASchedule (amountPerExecution totalBudget : Rat) : DCASchedule :=
  { amountSolPerExecution := amountPerExecution
  , totalBudgetSol := totalBudget
  , spentSol := 0
  , executionCount := 0
  , maxExecutions := (⌊totalBudget / amountPerExecution⌋).toNat
  , status := .active }

/-- `executeDCADeposit`, restricted to the budget-relevant state: on success,
increment the execution count, add the per-execution amount to `spent`, and
transition to COMPLETED when `spent >= budget` or
(`maxExecutions > 0` and `executions >= maxExecutions`); on failure only
`lastError` and the next execution time change, so this state is unchanged. -/
def executeDCADeposit (success : Bool) (s : DCASchedule) : DCASchedule :=
  if success then
    let s' := { s with
      executionCount := s.executionCount + 1
      spentSol := s.spentSol + s.amountSolPerExecution }
    if s'.spentSol ≥ s.totalBudgetSol ∨ (0 < s.maxExecutions ∧ s.maxExecutions ≤ s'.executionCount)
    then { s' with status := .completed }
    else s'
  else s

/-- One scheduler pass over a schedule (`processDueSchedules`): a due ACTIVE
schedule is executed with the given outcome; any other schedule is left
untouched. -/
def dcaTick (success : Bool) (s : DCASchedule) : DCASchedule :=
  if s.status = .active then executeDCADeposit success s else s

/-- A run of scheduler ticks, oldest first. -/
def runDcaTicks (ticks : List Bool) (s : DCASchedule) : DCASchedule :=
  ticks.foldl (fun st b => dcaTick b st) s

/-! ## Helper lemmas -/

/-- Floor-division multiple is at most the dividend (positive divisor). -/
theorem fdiv_mul_le_self (a : Int) {b : Int} (hb : 0 < b) : a.fdiv b * b ≤ a := by
  rw [Int.fdiv_eq_ediv _ hb.le]
  exact Int.ediv_mul_le a hb.ne'

/-- Floor-division multiple is within one divisor of the dividend (positive
divisor). -/
theorem sub_lt_fdiv_mul_self (a : Int) {b : Int} (hb : 0 < b) : a - b < a.fdiv b * b := by
  rw [Int.fdiv_eq_ediv _ hb.le]
  have h := Int.lt_ediv_add_one_mul_self a hb
  nlinarith

end LpEngine

namespace LpEngine

/-- C10: the in-range flag is computed with different interval conventions:
the Raydium CLMM position indexer reports in range iff
`tickLower ≤ currentTick < tickUpper` (upper bound exclusive, so a current
tick equal to the upper bound is reported out of range), while the DLMM
monitor treats the range as closed, `currentBin ∈ [lower, upper]`. -/
theorem inRange_conventions_differ (l u c : Int) :
    (raydiumInRange l u c = true ↔ l ≤ c ∧ c < u) ∧
    (dlmmInRange l u c = true ↔ l ≤ c ∧ c ≤ u) ∧
    raydiumInRange l u u = false ∧
    (l ≤ u → dlmmInRange l u u = true) := by
  refine ⟨?_, ?_, ?_, fun h => ?_⟩
  · simp [raydiumInRange]
  · simp [dlmmInRange]
  · simp [raydiumInRange]
  · simp [dlmmInRange, h]

/-- Witness for `inRange_conventions_differ` at the boundary current
index 5050 of range [4950, 5050]. -/
theorem inRange_conventions_differ_witness :
    raydiumInRange 4950 5050 5050 = false ∧ dlmmInRange 4950 5050 5050 = true :=
  ⟨(inRange_conventions_differ 4950 5050 5050).2.2.1,
   (inRange_conventions_differ 4950 5050 5050).2.2.2 (by decide)⟩

/-- C9 counterexample: the fee surface charges 10 basis points, not 100: on a
gross amount of 10000 the fee is 10, whereas 1 % of 10000 is 100. -/
theorem createFeeBreakdown_not_one_percent :
    (createFeeBreakdown 10000).feeAmount = 10 ∧
    (10000 : Rat) * 100 / 10000 = 100 ∧
    (createFeeBreakdown 10000).feeAmount ≠ (10000 : Rat) * 100 / 10000 := by
  norm_num [createFeeBreakdown, FEE_BPS]

/-- C9 amended: the protocol-fee breakdown of the repository's fee surface
deducts `FEE_BPS = 10` basis points, i.e. 0.1 % of the gross amount (not
1 %), and the net amount is the gross minus that fee. -/
theorem createFeeBreakdown_rate (g : Rat) :
    (createFeeBreakdown g).feeAmount = g * (FEE_BPS : Rat) / 10000 ∧
    (createFeeBreakdown g).feeAmount = g / 1000 ∧
    (createFeeBreakdown g).feeAmount + (createFeeBreakdown g).netAmount = g := by
  refine ⟨rfl, ?_, ?_⟩
  · unfold createFeeBreakdown FEE_BPS
    push_cast
    ring
  · unfold createFeeBreakdown FEE_BPS
    push_cast
    ring

/-- C1 counterexample: with current tick 3, spacing 10 and the CONCENTRATED
shape (k = 5), the Raydium builder returns lower index -50, which lies
strictly below `current - k * spacing = -47`: the lower bound is rounded
outward, not truncated toward the current index. -/
theorem raydiumTickLower_rounds_outward :
    raydiumTickLower 3 10 .concentrated = -50 ∧
    (3 : Int) - 5 * 10 = -47 ∧
    raydiumTickLower 3 10 .concentrated < 3 - 5 * 10 := by
  refine ⟨by decide, by decide, by decide⟩

/-- C1 amended: the Raydium builder floors both range indices onto the
spacing grid: each returned index is aligned to the spacing and lies within
one spacing below its target `current ∓ k·spacing`; hence the upper index
never exceeds `current + k·spacing`, but the lower index is at most
`current - k·spacing` and rounds outward (strictly below it) whenever the
spacing does not divide the current tick. -/
theorem raydiumTickRange_snapped (c s : Int) (st : RangeStrategy) (hs : 0 < s) :
    s ∣ raydiumTickLower c s st ∧
    s ∣ raydiumTickUpper c s st ∧
    raydiumTickLower c s st ≤ c - tickOffset st s ∧
    c - tickOffset st s - s < raydiumTickLower c s st ∧
    raydiumTickUpper c s st ≤ c + tickOffset st s ∧
    c + tickOffset st s - s < raydiumTickUpper c s st := by
  refine ⟨dvd_mul_left s _, dvd_mul_left s _, ?_, ?_, ?_, ?_⟩
  · exact fdiv_mul_le_self _ hs
  · exact sub_lt_fdiv_mul_self _ hs
  · exact fdiv_mul_le_self _ hs
  · exact sub_lt_fdiv_mul_self _ hs

/-- Witness for `raydiumTickRange_snapped` at current tick 3, spacing 10,
CONCENTRATED shape. -/
theorem raydiumTickRange_snapped_witness :
    (10 : Int) ∣ raydiumTickLower 3 10 .concentrated ∧
    (10 : Int) ∣ raydiumTickUpper 3 10 .concentrated ∧
    raydiumTickLower 3 10 .concentrated ≤ 3 - tickOffset .concentrated 10 ∧
    (3 : Int) - tickOffset .concentrated 10 - 10 < raydiumTickLower 3 10 .concentrated ∧
    raydiumTickUpper 3 10 .concentrated ≤ 3 + tickOffset .concentrated 10 ∧
    (3 : Int) + tickOffset .concentrated 10 - 10 < raydiumTickUpper 3 10 .concentrated :=
  raydiumTickRange_snapped 3 10 .concentrated (by decide)

/-- C2 counterexample: a run that lands its first transaction and then fails
returns the same value as a run that fails immediately: the landed hash h1 is
discarded and the caller receives only the bare error, not a
partial-success record. -/
theorem runSequentialSends_discards_partial_success :
    (runSequentialSends [.ok "h1", .error "boom"]).2 = .error "boom" ∧
    (runSequentialSends [.error "boom"]).2 = .error "boom" ∧
    (runSequentialSends [.ok "h1", .error "boom"]).2 =
      (runSequentialSends [.error "boom"]).2 ∧
    (runSequentialSends [.ok "h1", .error "boom"]).1 = 2 :=
  ⟨rfl, rfl, rfl, rfl⟩

/-- C2 amended: when the transaction after a prefix of `k` landed
transactions fails on-chain, the direct-RPC driver attempts exactly `k + 1`
sends (no later transaction is sent) and the thrown error surfaces to the
caller bare: the hashes of the landed prefix are discarded rather than
returned as a partial-success set. -/
theorem runSequentialSends_aborts_on_failure (pre : List String) (e : String)
    (post : List (Except String String)) :
    runSequentialSends (pre.map .ok ++ .error e :: post) = (pre.length + 1, .error e) := by
  induction pre with
  | nil => rfl
  | cons h t ih =>
    simp only [List.map_cons, List.cons_append, runSequentialSends, List.append_eq,
      ih, List.length_cons, Except.map]

/-- C4 counterexample: with caller slippage 300 bps and every submission
attempt failing with SLIPPAGE_EXCEEDED, `executeLp` builds the pipeline
exactly once at 300 bps (no 300 → 500 → 750 → 1000 escalation) and surfaces
SLIPPAGE_EXCEEDED itself, never SLIPPAGE_EXHAUSTED. -/
theorem executeLpJito_no_escalation_counterexample :
    (executeLpJito 300 (fun _ => .error "SLIPPAGE_EXCEEDED")).buildSlippages = [300] ∧
    (executeLpJito 300 (fun _ => .error "SLIPPAGE_EXCEEDED")).buildSlippages ≠
      [300, 500, 750, 1000] ∧
    (executeLpJito 300 (fun _ => .error "SLIPPAGE_EXCEEDED")).result =
      .error "SLIPPAGE_EXCEEDED" ∧
    (executeLpJito 300 (fun _ => .error "SLIPPAGE_EXCEEDED")).result ≠
      .error "SLIPPAGE_EXHAUSTED" := by
  refine ⟨rfl, by decide, ?_, ?_⟩
  · simp [executeLpJito, withRetry, withRetryAux, isTransientError]
  · simp [executeLpJito, withRetry, withRetryAux, isTransientError]

/-- C4 amended: the bundle path of `executeLp` builds the pipeline exactly
once, at the caller's slippage, whatever the submission outcomes are; and a
SLIPPAGE_EXCEEDED submission failure (which the transient classifier does
not retry) propagates to the caller unchanged — there is no slippage
escalation loop and no SLIPPAGE_EXHAUSTED outcome. -/
theorem executeLpJito_no_escalation (slippageBps : Nat)
    (sendAttempts : Nat → Except String String) :
    (executeLpJito slippageBps sendAttempts).buildSlippages = [slippageBps] ∧
    (sendAttempts 0 = .error "SLIPPAGE_EXCEEDED" →
      (executeLpJito slippageBps sendAttempts).result = .error "SLIPPAGE_EXCEEDED") := by
  refine ⟨rfl, fun h0 => ?_⟩
  simp [executeLpJito, withRetry, withRetryAux, h0, isTransientError]

/-- Witness for `executeLpJito_no_escalation` at slippage 300 with a
constantly failing submitter. -/
theorem executeLpJito_no_escalation_witness :
    (executeLpJito 300 (fun _ => .error "SLIPPAGE_EXCEEDED")).buildSlippages = [300] ∧
    (executeLpJito 300 (fun _ => .error "SLIPPAGE_EXCEEDED")).result =
      .error "SLIPPAGE_EXCEEDED" :=
  ⟨(executeLpJito_no_escalation 300 (fun _ => .error "SLIPPAGE_EXCEEDED")).1,
   (executeLpJito_no_escalation 300 (fun _ => .error "SLIPPAGE_EXCEEDED")).2 rfl⟩

/-- C6 counterexample: `convertToVersionedTx` prepends its fixed
compute-budget pair without filtering pre-existing compute-budget
instructions: a legacy transaction that already carries a
set-compute-unit-limit instruction converts to a transaction with two
occurrences of set-compute-unit-limit, not exactly one. -/
theorem convertToVersionedTx_duplicates_budget :
    convertToVersionedTx (.legacy [Ix.cuLimit 200000, Ix.nonBudget 0]) =
      [Ix.cuLimit 400000, Ix.cuPrice 50000, Ix.cuLimit 200000, Ix.nonBudget 0] ∧
    (convertToVersionedTx (.legacy [Ix.cuLimit 200000, Ix.nonBudget 0])).countP
      (·.isCuLimit) = 2 := by
  refine ⟨rfl, by decide⟩

/-- C6 amended: only the open-position transactions that go through the
simulation-driven rebuild enjoy the claimed shape — their first two
instructions are the fresh compute-unit-limit and compute-unit-price
instructions with exactly one occurrence of each, pre-existing
compute-budget instructions having been filtered out. The rebalance
converter instead prepends its fixed pair without filtering, so a
pre-existing compute-budget instruction survives as a duplicate, and an SDK
transaction that is already versioned passes through entirely unchanged. -/
theorem composedTx_budget_shapes (e : ComputeBudgetEstimate) (ixs : List Ix) :
    (rebuildWithBudget e ixs).take 2 =
      [Ix.cuLimit e.computeUnits, Ix.cuPrice e.priorityFee] ∧
    (rebuildWithBudget e ixs).countP (·.isCuLimit) = 1 ∧
    (rebuildWithBudget e ixs).countP (·.isCuPrice) = 1 ∧
    (convertToVersionedTx (.legacy ixs)).take 2 =
      [Ix.cuLimit 400000, Ix.cuPrice 50000] ∧
    (convertToVersionedTx (.legacy ixs)).countP (·.isCuLimit) =
      1 + ixs.countP (·.isCuLimit) ∧
    convertToVersionedTx (.versioned ixs) = ixs := by
  refine ⟨rfl, ?_, ?_, rfl, ?_, rfl⟩
  · simp [rebuildWithBudget, buildComputeBudgetInstructions, List.countP_append,
      List.countP_cons, Ix.isCuLimit, Ix.isCuPrice]
    intro a _ hb
    cases a <;> simp_all [Ix.isComputeBudget, Ix.isCuLimit]
  · simp [rebuildWithBudget, buildComputeBudgetInstructions, List.countP_append,
      List.countP_cons, Ix.isCuLimit, Ix.isCuPrice]
    intro a _ hb
    cases a <;> simp_all [Ix.isComputeBudget, Ix.isCuPrice]
  · simp [convertToVersionedTx, List.countP_cons, Ix.isCuLimit, Ix.isCuPrice]
    omega

/-- C7 counterexample: with a stale Pyth reading at 100 and a live Jupiter
reading at 200, the aggregated price is 150 — the median of all source
prices, stale included — while the median of the live prices alone is 200. -/
theorem aggregate_price_counts_stale_sources :
    (aggregate [⟨100, 0, 100, .pyth, true⟩, ⟨200, 0, 200, .jupiter, false⟩]).price = 150 ∧
    median ((([⟨100, 0, 100, .pyth, true⟩, ⟨200, 0, 200, .jupiter, false⟩] :
      List OraclePrice).filter (fun s => !s.stale)).map (·.price)) = 200 ∧
    (150 : Rat) ≠ 200 := by
  refine ⟨?_, ?_, by norm_num⟩
  · norm_num [aggregate, median, List.insertionSort, List.orderedInsert]
  · norm_num [median, List.insertionSort, List.orderedInsert]

/-- C7 amended: the aggregated price is the median of the prices of all
sources, stale and live alike; staleness never excludes a reading from the
median computation (it only feeds the all-stale reliability check). -/
theorem aggregate_price_is_median_of_all (sources : List OraclePrice) :
    (aggregate sources).price = median (sources.map (·.price)) := by
  cases sources with
  | nil => rfl
  | cons s rest => rfl

/-- C3 counterexample: two live sources at 399 and 401 diverge by exactly
0.5 % (2 / 400 = DIVERGENCE_THRESHOLD), and the aggregate is marked
reliable: the 0.5 % bound is exclusive in the code, not inclusive. -/
theorem aggregate_boundary_divergence_reliable :
    (aggregate [⟨399, 0, 399, .pyth, false⟩, ⟨401, 0, 401, .jupiter, false⟩]).divergence =
      DIVERGENCE_THRESHOLD ∧
    (aggregate [⟨399, 0, 399, .pyth, false⟩, ⟨401, 0, 401, .jupiter, false⟩]).reliable =
      true := by
  constructor
  · norm_num [aggregate, maxPairwiseDivergence, allPairs, pairDivergence,
      DIVERGENCE_THRESHOLD, abs_sub_comm]
  · norm_num [aggregate, maxPairwiseDivergence, allPairs, pairDivergence,
      DIVERGENCE_THRESHOLD, abs_sub_comm]

/-- C3 amended: the aggregate is marked unreliable exactly when all sources
are stale (vacuously so on an empty source list) or the maximum pairwise
divergence strictly exceeds the 0.5 % threshold; at a divergence of exactly
0.5 % the aggregate is reliable. -/
theorem aggregate_reliability_characterization (sources : List OraclePrice) :
    (aggregate sources).reliable = false ↔
      (sources.all (·.stale) = true ∨
        DIVERGENCE_THRESHOLD < (aggregate sources).divergence) := by
  cases sources with
  | nil => simp [aggregate]
  | cons s rest =>
    cases hst : (s :: rest).all (·.stale) <;>
      simp [aggregate, hst, not_le]

/-- Exact natural ceiling of thirteen tenths of a natural number. -/
theorem ceil_thirteen_tenths (u : Nat) :
    (13 * u + 9) / 10 = ⌈(u : Rat) * (13 / 10)⌉₊ := by
  rcases Nat.eq_zero_or_pos u with hu | hu
  · subst hu; simp
  · have hN : (13 * u + 9) / 10 ≠ 0 := by omega
    have h13 : (u : Rat) * (13 / 10) = ((13 * u : Nat) : Rat) / 10 := by
      push_cast
      ring
    rw [eq_comm, Nat.ceil_eq_iff hN, h13]
    constructor
    · rw [lt_div_iff₀ (by norm_num : (0 : Rat) < 10)]
      exact_mod_cast (by omega : ((13 * u + 9) / 10 - 1) * 10 < 13 * u)
    · rw [div_le_iff₀ (by norm_num : (0 : Rat) < 10)]
      exact_mod_cast (by omega : 13 * u ≤ (13 * u + 9) / 10 * 10)

/-- C8: the estimator chooses the default limit 400 000 when the simulation
throws, returns an error, or reports zero compute units consumed, and
otherwise the ceiling of 1.3 times the consumed units, clamped to
[50 000, 1 400 000]. -/
theorem optimizeComputeUnits_spec :
    optimizeComputeUnits .failed = DEFAULT_CU_LIMIT ∧
    DEFAULT_CU_LIMIT = 400000 ∧
    (∀ u : Nat, optimizeComputeUnits (.returned true u) = DEFAULT_CU_LIMIT) ∧
    optimizeComputeUnits (.returned false 0) = DEFAULT_CU_LIMIT ∧
    ∀ u : Nat, 0 < u →
      optimizeComputeUnits (.returned false u) =
        max 50000 (min ⌈(u : Rat) * (13 / 10)⌉₊ 1400000) := by
  refine ⟨rfl, rfl, fun u => rfl, rfl, fun u hu => ?_⟩
  simp only [optimizeComputeUnits]
  rw [if_neg (by simp), if_pos hu, ceil_thirteen_tenths]

/-- Witness for `optimizeComputeUnits_spec` at one million consumed units. -/
theorem optimizeComputeUnits_spec_witness :
    0 < 1000000 ∧
    optimizeComputeUnits (.returned false 1000000) =
      max 50000 (min ⌈(1000000 : Rat) * (13 / 10)⌉₊ 1400000) :=
  ⟨by decide, optimizeComputeUnits_spec.2.2.2.2 1000000 (by decide)⟩

/-- Inductive invariant of DCA schedule progression: spending tracks the
execution count, the cap is at least one, the cap times the per-execution
amount fits in the budget, the count never passes the cap, and an ACTIVE
schedule still has room for one more execution. -/
def DCAInv (s : DCASchedule) : Prop :=
  0 < s.amountSolPerExecution ∧
  1 ≤ s.maxExecutions ∧
  (s.maxExecutions : Rat) * s.amountSolPerExecution ≤ s.totalBudgetSol ∧
  s.spentSol = (s.executionCount : Rat) * s.amountSolPerExecution ∧
  s.executionCount ≤ s.maxExecutions ∧
  (s.status = .active → s.executionCount < s.maxExecutions)

/-- `createDCASchedule` establishes the invariant whenever the per-execution
amount is positive and within the total budget. -/
theorem dcaInv_create {a b : Rat} (ha : 0 < a) (hab : a ≤ b) :
    DCAInv (createDCASchedule a b) := by
  have hfloor1 : (1 : Int) ≤ ⌊b / a⌋ := by
    rw [Int.le_floor]
    push_cast
    exact (one_le_div ha).mpr hab
  have hmax1 : 1 ≤ (createDCASchedule a b).maxExecutions := by
    simp only [createDCASchedule]
    omega
  refine ⟨ha, hmax1, ?_, by simp [createDCASchedule], by simp [createDCASchedule], ?_⟩
  · have hcast : (((⌊b / a⌋).toNat : Int) : Rat) = ((⌊b / a⌋ : Int) : Rat) := by
      exact_mod_cast congrArg Int.cast (Int.toNat_of_nonneg (by omega))
    simp only [createDCASchedule]
    calc ((((⌊b / a⌋).toNat : Nat) : Rat)) * a
        = ((⌊b / a⌋ : Int) : Rat) * a := by
          rw [show (((⌊b / a⌋).toNat : Nat) : Rat) = (((⌊b / a⌋).toNat : Int) : Rat) by
            push_cast; ring, hcast]
      _ ≤ (b / a) * a := by
          exact mul_le_mul_of_nonneg_right (Int.floor_le _) ha.le
      _ = b := div_mul_cancel₀ b ha.ne'
  · intro _
    simp only [createDCASchedule]
    omega

/-- One scheduler tick preserves the DCA invariant. -/
theorem dcaInv_tick (success : Bool) {s : DCASchedule} (h : DCAInv s) :
    DCAInv (dcaTick success s) := by
  obtain ⟨ha, hmax, hcap, hspent, hcount, hactive⟩ := h
  by_cases hst : s.status = .active
  · have hlt := hactive hst
    cases success with
    | false =>
      simp only [dcaTick, executeDCADeposit, hst]
      exact ⟨ha, hmax, hcap, hspent, hcount, fun _ => hlt⟩
    | true =>
      simp only [dcaTick, executeDCADeposit, hst]
      by_cases hdone : s.spentSol + s.amountSolPerExecution ≥ s.totalBudgetSol ∨
          0 < s.maxExecutions ∧ s.maxExecutions ≤ s.executionCount + 1
      · rw [if_pos hdone]
        refine ⟨ha, hmax, hcap, ?_, ?_, ?_⟩
        · show s.spentSol + s.amountSolPerExecution =
            ((s.executionCount + 1 : Nat) : Rat) * s.amountSolPerExecution
          rw [hspent]
          push_cast
          ring
        · show s.executionCount + 1 ≤ s.maxExecutions
          omega
        · intro hcon
          simp at hcon
      · rw [if_neg hdone]
        refine ⟨ha, hmax, hcap, ?_, ?_, fun _ => ?_⟩
        · show s.spentSol + s.amountSolPerExecution =
            ((s.executionCount + 1 : Nat) : Rat) * s.amountSolPerExecution
          rw [hspent]
          push_cast
          ring
        · show s.executionCount + 1 ≤ s.maxExecutions
          omega
        · show s.executionCount + 1 < s.maxExecutions
          push_neg at hdone
          have h2 := hdone.2 (by omega)
          omega
  · simp only [dcaTick, if_neg hst]
    exact ⟨ha, hmax, hcap, hspent, hcount, hactive⟩

/-- A whole run of scheduler ticks preserves the DCA invariant. -/
theorem dcaInv_run (ticks : List Bool) {s : DCASchedule} (h : DCAInv s) :
    DCAInv (runDcaTicks ticks s) := by
  induction ticks generalizing s with
  | nil => exact h
  | cons t rest ih => exact ih (dcaInv_tick t h)

/-- C5 amended: for every schedule whose per-execution amount is positive and
at most its total budget, after every sequence of scheduler ticks the amount
spent is at most the total budget and the execution count is at most the
recorded maximum execution count. (When the per-execution amount exceeds the
budget the recorded maximum is 0, meaning unlimited, and the first successful
tick overshoots the budget.) -/
theorem dca_budget_invariant (a b : Rat) (ha : 0 < a) (hab : a ≤ b)
    (ticks : List Bool) :
    (runDcaTicks ticks (createDCASchedule a b)).spentSol ≤
      (runDcaTicks ticks (createDCASchedule a b)).totalBudgetSol ∧
    (runDcaTicks ticks (createDCASchedule a b)).executionCount ≤
      (runDcaTicks ticks (createDCASchedule a b)).maxExecutions := by
  obtain ⟨ha', _, hcap, hspent, hcount, _⟩ := dcaInv_run ticks (dcaInv_create ha hab)
  refine ⟨?_, hcount⟩
  rw [hspent]
  calc ((runDcaTicks ticks (createDCASchedule a b)).executionCount : Rat) *
        (runDcaTicks ticks (createDCASchedule a b)).amountSolPerExecution
      ≤ ((runDcaTicks ticks (createDCASchedule a b)).maxExecutions : Rat) *
        (runDcaTicks ticks (createDCASchedule a b)).amountSolPerExecution := by
        exact mul_le_mul_of_nonneg_right (by exact_mod_cast hcount) ha'.le
    _ ≤ (runDcaTicks ticks (createDCASchedule a b)).totalBudgetSol := hcap

/-- Witness for `dca_budget_invariant`: 0.5 SOL per execution against a 1 SOL
budget, two successful ticks. -/
theorem dca_budget_invariant_witness :
    (runDcaTicks [true, true] (createDCASchedule (1/2) 1)).spentSol ≤
      (runDcaTicks [true, true] (createDCASchedule (1/2) 1)).totalBudgetSol ∧
    (runDcaTicks [true, true] (createDCASchedule (1/2) 1)).executionCount ≤
      (runDcaTicks [true, true] (createDCASchedule (1/2) 1)).maxExecutions :=
  dca_budget_invariant (1/2) 1 (by norm_num) (by norm_num) [true, true]

/-- C5 counterexample: a schedule created with per-execution amount 2 and
total budget 1 records `maxExecutions = 0`; one successful scheduler tick
leaves `spent = 2 > 1 = budget` and `executions = 1 > 0 = maxExecutions`, so
the claimed invariant fails on such a schedule. -/
theorem dca_budget_overshoot :
    (runDcaTicks [true] (createDCASchedule 2 1)).spentSol = 2 ∧
    (runDcaTicks [true] (createDCASchedule 2 1)).totalBudgetSol = 1 ∧
    ¬((runDcaTicks [true] (createDCASchedule 2 1)).spentSol ≤
      (runDcaTicks [true] (createDCASchedule 2 1)).totalBudgetSol) ∧
    (runDcaTicks [true] (createDCASchedule 2 1)).executionCount = 1 ∧
    (runDcaTicks [true] (createDCASchedule 2 1)).maxExecutions = 0 := by
  have hfloor : ⌊(1 : Rat) / 2⌋ = 0 := by
    rw [Int.floor_eq_zero_iff]
    constructor <;> norm_num
  have hrun : runDcaTicks [true] (createDCASchedule 2 1) =
      { amountSolPerExecution := 2, totalBudgetSol := 1, spentSol := 2
      , executionCount := 1, maxExecutions := 0, status := .completed } := by
    simp [runDcaTicks, dcaTick, createDCASchedule, executeDCADeposit, hfloor]
    norm_num
  rw [hrun]
  norm_num

end LpEngine
